import Mathlib

/-!
Shallow embedding of the anki-mcp bridge (src/index.ts) and a verification of
the specification's claims about it.

The bridge is a stateless translator: it receives MCP requests (list/read
resources, list/call tools), forwards actions to the AnkiConnect backend over
HTTP, and translates results back.  We embed:

- the JavaScript values that flow through the handlers (`JsVal`), including
  `undefined` and `NaN`, which the source can produce via missing-property
  access and `parseInt` failure;
- `JSON.stringify`, JS string coercion (template literals, `Array.join`),
  `String.startsWith` / `String.replace` (first occurrence), and `parseInt`;
- the gateway `ankiRequest` and the three request handlers
  (list resources, read resource, call tool), each returning the list of
  backend call envelopes it issued together with its outcome.

The backend is modelled as a function from (action, params) to a transport
outcome: either a failure (fetch rejection / non-JSON body) or a decoded
JSON reply value.
-/

namespace AnkiMcp

/-- JavaScript runtime values flowing through the handlers: JSON values plus
`undefined` (from missing-property access) and `NaN` (from failed `parseInt`).
Objects are insertion-ordered association lists, as JS objects enumerate. -/
inductive JsVal where
  | null
  | undefined
  | nan
  | bool (b : Bool)
  | num (n : Int)
  | str (s : String)
  | arr (elems : List JsVal)
  | obj (fields : List (String × JsVal))

/-- Decimal digit characters rendered by JS number printing: code 48 + d. -/
def digitChar (d : Nat) : Char := Char.ofNat (48 + d)

/-- Fuel-driven accumulator rendering of a natural number in base 10,
mirroring how JS prints a nonnegative integer.  Structural in the fuel so
that it reduces definitionally. -/
def natDigitsAux : Nat → Nat → List Char → List Char
  | 0, _, acc => acc
  | fuel + 1, n, acc =>
    if n < 10 then digitChar n :: acc
    else natDigitsAux fuel (n / 10) (digitChar (n % 10) :: acc)

/-- Decimal digit list of a natural number (fuel n+1 always suffices). -/
def natDigits (n : Nat) : List Char := natDigitsAux (n + 1) n []

/-- Decimal rendering of a natural number, as JS prints it. -/
def natRepr (n : Nat) : String := String.mk (natDigits n)

/-- Decimal rendering of an integer, as JS prints an integral number. -/
def intRepr : Int → String
  | .ofNat n => natRepr n
  | .negSucc n => "-" ++ natRepr (n + 1)

/-- Hex digit character (lowercase), used by the \u escape in stringify. -/
def hexDigitChar (d : Nat) : Char :=
  if d < 10 then Char.ofNat (48 + d) else Char.ofNat (87 + d)

/-- Two-hex-digit rendering of a byte value. -/
def hexPair (m : Nat) : String := String.mk [hexDigitChar (m / 16), hexDigitChar (m % 16)]

/-- JSON string escaping of one character, as JSON.stringify performs it. -/
def escChar (c : Char) : String :=
  if c = '\x22' then "\\\x22"
  else if c = '\\' then "\\\\"
  else if c = '\x08' then "\\b"
  else if c = '\x09' then "\\t"
  else if c = '\x0a' then "\\n"
  else if c = '\x0c' then "\\f"
  else if c = '\x0d' then "\\r"
  else if c.toNat < 32 then "\\u00" ++ hexPair c.toNat
  else String.mk [c]

/-- JSON escaping of a character list. -/
def jsonEscape : List Char → String
  | [] => ""
  | c :: cs => escChar c ++ jsonEscape cs

/-- A JSON string literal as JSON.stringify renders it: quoted and escaped. -/
def jsonQuote (s : String) : String := "\x22" ++ jsonEscape s.data ++ "\x22"

/-- Is this value JS `undefined`?  JSON.stringify omits object fields whose
value is undefined. -/
def isUndefVal : JsVal → Bool
  | .undefined => true
  | _ => false

/-- Is this value `null` or `undefined`?  `Array.prototype.join` and array
string coercion render such elements as the empty string. -/
def isNullish : JsVal → Bool
  | .null => true
  | .undefined => true
  | _ => false

mutual

/-- JSON.stringify on a JS value.  `undefined` and `NaN` serialize as `null`
wherever stringify emits them (inside arrays; NaN anywhere); object fields
holding `undefined` are omitted.  (Top-level `JSON.stringify(undefined)`
actually yields the non-string `undefined` in JS; no handler output depends
on that corner and we render `null` there.) -/
def stringify : JsVal → String
  | .null => "null"
  | .undefined => "null"
  | .nan => "null"
  | .bool b => cond b "true" "false"
  | .num n => intRepr n
  | .str s => jsonQuote s
  | .arr xs => "[" ++ stringifyArr xs ++ "]"
  | .obj fs => "\x7b" ++ stringifyObj fs ++ "\x7d"

/-- Stringify the comma-separated element list of a JSON array. -/
def stringifyArr : List JsVal → String
  | [] => ""
  | x :: xs => stringify x ++ (if xs.isEmpty then "" else "," ++ stringifyArr xs)

/-- Stringify the comma-separated field list of a JSON object, skipping
fields whose value is `undefined`, as JSON.stringify does. -/
def stringifyObj : List (String × JsVal) → String
  | [] => ""
  | (k, v) :: fs =>
    if isUndefVal v then stringifyObj fs
    else
      let rest := stringifyObj fs
      jsonQuote k ++ ":" ++ stringify v ++ (if rest = "" then "" else "," ++ rest)

end

mutual

/-- JS string coercion (template literals, String(x)). -/
def jsString : JsVal → String
  | .null => "null"
  | .undefined => "undefined"
  | .nan => "NaN"
  | .bool b => cond b "true" "false"
  | .num n => intRepr n
  | .str s => s
  | .arr xs => jsStringArr xs
  | .obj _ => "[object Object]"

/-- JS Array toString: elements coerced (null/undefined as empty), joined
with commas. -/
def jsStringArr : List JsVal → String
  | [] => ""
  | x :: xs =>
    (if isNullish x then "" else jsString x) ++
      (if xs.isEmpty then "" else "," ++ jsStringArr xs)

end

/-- JS `Array.prototype.join(sep)`: elements coerced to strings
(null/undefined as empty), interleaved with the separator. -/
def jsJoin (xs : List JsVal) (sep : String) : String :=
  String.intercalate sep (xs.map fun v => if isNullish v then "" else jsString v)

/-- JS property access `v.key` on a decoded JSON value: a lookup on objects,
`undefined` on a missing key or a non-object. -/
def jsonField (v : JsVal) (key : String) : JsVal :=
  match v with
  | .obj fs => (fs.lookup key).getD .undefined
  | _ => .undefined

/-- Does the object value have the given own field? -/
def jsonHasField (v : JsVal) (key : String) : Bool :=
  match v with
  | .obj fs => (fs.lookup key).isSome
  | _ => false

/-- JS truthiness test (for `!request.params.arguments`), on a value that may
be absent (`none` models an absent/undefined arguments object). -/
def jsFalsy : JsVal → Bool
  | .null => true
  | .undefined => true
  | .nan => true
  | .bool b => !b
  | .num n => n == 0
  | .str s => s == ""
  | _ => false

/-- Truthiness of the optional arguments object. -/
def jsFalsyOpt : Option JsVal → Bool
  | none => true
  | some v => jsFalsy v

/-- JS `String.prototype.startsWith`: prefix test on the character sequence. -/
def jsStartsWith (s p : String) : Bool := p.data.isPrefixOf s.data

/-- Replace the first occurrence of `pat` by `rep` in a character list
(JS `String.prototype.replace` with a string pattern). -/
def replaceFirstL (pat rep : List Char) : List Char → List Char
  | [] => if pat.isPrefixOf [] then rep else []
  | c :: cs =>
    if pat.isPrefixOf (c :: cs) then rep ++ (c :: cs).drop pat.length
    else c :: replaceFirstL pat rep cs

/-- JS `s.replace(pat, rep)` for a string pattern: first occurrence only. -/
def jsReplaceFirst (s pat rep : String) : String :=
  String.mk (replaceFirstL pat.data rep.data s.data)

/-- Whitespace skipped by `parseInt` (the common ASCII cases; JS also skips
further Unicode space, which no URI in scope contains). -/
def isWsChar (c : Char) : Bool :=
  c.toNat == 32 || c.toNat == 9 || c.toNat == 10 || c.toNat == 13 ||
    c.toNat == 11 || c.toNat == 12

/-- Numeric value of a hex digit character, if it is one. -/
def hexDigitVal (c : Char) : Option Nat :=
  if 48 ≤ c.toNat ∧ c.toNat ≤ 57 then some (c.toNat - 48)
  else if 97 ≤ c.toNat ∧ c.toNat ≤ 102 then some (c.toNat - 87)
  else if 65 ≤ c.toNat ∧ c.toNat ≤ 70 then some (c.toNat - 55)
  else none

/-- Digit value with default 0 (only applied to valid digits). -/
def hexVal0 (c : Char) : Nat := (hexDigitVal c).getD 0

/-- Is `c` a digit valid in the given radix? -/
def digitInRadix (radix : Nat) (c : Char) : Bool :=
  match hexDigitVal c with
  | some v => v < radix
  | none => false

/-- Strip an optional leading sign, yielding the sign and the rest
(step 2 of `parseInt`). -/
def stripSign (l : List Char) : Int × List Char :=
  if l.head? = some '-' then (-1, l.tail)
  else if l.head? = some '+' then (1, l.tail)
  else (1, l)

/-- Strip an optional 0x/0X prefix, yielding the radix and the rest
(step 3 of `parseInt` when called without an explicit radix). -/
def stripRadix (l : List Char) : Nat × List Char :=
  if l.head? = some '0' ∧ (l.tail.head? = some 'x' ∨ l.tail.head? = some 'X') then
    (16, l.tail.tail)
  else (10, l)

/-- JS `parseInt(s)` (no explicit radix): skip leading whitespace, take an
optional sign, detect a hex prefix, consume the longest valid digit prefix;
`none` models `NaN` (no digits consumed). -/
def parseIntJS (s : String) : Option Int :=
  let l := s.data.dropWhile isWsChar
  let sl := stripSign l
  let rl := stripRadix sl.2
  let ds := rl.2.takeWhile (digitInRadix rl.1)
  if ds = [] then none
  else some (sl.1 * ((ds.foldl (fun a c => a * rl.1 + hexVal0 c) 0 : Nat) : Int))

/-- The number `parseInt` produced, as the JS value stored in the handler's
local (`NaN` when parsing failed). -/
def numToVal : Option Int → JsVal
  | none => .nan
  | some n => .num n

/-- The envelope `ankiRequest` POSTs to the backend:
`JSON.stringify(\x7b action, version: 6, params \x7d)`. -/
structure Envelope where
  action : String
  version : Int
  params : JsVal

/-- The envelope for a given action and params (version constant 6). -/
def mkEnvelope (action : String) (params : JsVal) : Envelope :=
  ⟨action, 6, params⟩

/-- Outcome of one `fetch` + `response.json()` round trip: either a rejection
(network failure or a non-JSON body) or the decoded JSON reply. -/
inductive FetchOutcome where
  | fail
  | reply (v : JsVal)

/-- The external AnkiConnect endpoint, as a fixed function from the action and
params of the posted envelope to the transport outcome. -/
def Backend := String → JsVal → FetchOutcome

/-- JS exceptions a handler can surface to the protocol layer. -/
inductive JsError where
  | transport
  | destructure
  | typeError
  | thrown (msg : String)

/-- `ankiRequest(action, params)` from src/index.ts: POST the envelope, decode
the JSON reply, destructure `\x7b result \x7d` and return it.  The `error`
field of the reply is never inspected.  Destructuring throws on
`null`/`undefined`; property access on any other non-object yields
`undefined`. -/
def ankiRequest (be : Backend) (action : String) (params : JsVal) :
    Except JsError JsVal :=
  match be action params with
  | .fail => .error .transport
  | .reply .null => .error .destructure
  | .reply .undefined => .error .destructure
  | .reply v => .ok (jsonField v "result")

/-- A resource listing entry `\x7b uri, name \x7d`. -/
structure Resource where
  uri : String
  name : String

/-- A resource read content block `\x7b uri, mimeType, text \x7d`. -/
structure ContentBlock where
  uri : String
  mimeType : String
  text : String

/-- `Object.entries(v)`: throws on null/undefined, the field list on objects,
index entries on strings, empty on other primitives. -/
def jsEntries : JsVal → Except JsError (List (String × JsVal))
  | .null => .error .typeError
  | .undefined => .error .typeError
  | .obj fs => .ok fs
  | .str s => .ok (s.data.enum.map fun p => (natRepr p.1, .str (String.mk [p.2])))
  | _ => .ok []

/-- The ListResources handler: two backend enumeration calls
(`deckNamesAndIds`, `modelNamesAndIds`), then one listing entry per mapping
pair — `anki://decks/<id>` entries first, `anki://models/<id>` entries
second, in the enumeration order of each mapping.  Returns the envelopes
issued together with the handler outcome. -/
def handleListResources (be : Backend) :
    List Envelope × Except JsError (List Resource) :=
  let env1 := mkEnvelope "deckNamesAndIds" (.obj [])
  match ankiRequest be "deckNamesAndIds" (.obj []) with
  | .error e => ([env1], .error e)
  | .ok decks =>
    let env2 := mkEnvelope "modelNamesAndIds" (.obj [])
    match ankiRequest be "modelNamesAndIds" (.obj []) with
    | .error e => ([env1, env2], .error e)
    | .ok models =>
      match jsEntries decks with
      | .error e => ([env1, env2], .error e)
      | .ok dEntries =>
        match jsEntries models with
        | .error e => ([env1, env2], .error e)
        | .ok mEntries =>
          ([env1, env2], .ok
            ((dEntries.map fun p => ⟨"anki://decks/" ++ jsString p.2, p.1⟩) ++
              (mEntries.map fun p => ⟨"anki://models/" ++ jsString p.2, p.1⟩)))

/-- The ReadResource handler.  Dispatch on the URI prefix:
`anki://decks/` parses the suffix with `parseInt` and returns a single JSON
content block `\x7b deckId \x7d` locally; `anki://models/` parses the suffix
and issues one `findModelsById` call with a one-element id list; anything
else throws `Error("resource not found")`. -/
def handleReadResource (be : Backend) (uri : String) :
    List Envelope × Except JsError (List ContentBlock) :=
  if jsStartsWith uri "anki://decks/" then
    let deckId := numToVal (parseIntJS (jsReplaceFirst uri "anki://decks/" ""))
    ([], .ok [⟨uri, "application/json", stringify (.obj [("deckId", deckId)])⟩])
  else if jsStartsWith uri "anki://models/" then
    let modelId := numToVal (parseIntJS (jsReplaceFirst uri "anki://models/" ""))
    let params : JsVal := .obj [("modelIds", .arr [modelId])]
    match ankiRequest be "findModelsById" params with
    | .error e => ([mkEnvelope "findModelsById" params], .error e)
    | .ok models =>
      ([mkEnvelope "findModelsById" params],
        .ok [⟨uri, "application/json", stringify models⟩])
  else
    ([], .error (.thrown "resource not found"))

/-- The CallTool handler: the five-way switch on the tool name from
src/index.ts, each branch issuing its backend call(s) and formatting the
textual result.  `args` is `request.params.arguments` (`none` when absent). -/
def handleCallTool (be : Backend) (name : String) (args : Option JsVal) :
    List Envelope × Except JsError String :=
  match name with
  | "listDecks" =>
    let env := mkEnvelope "deckNames" (.obj [])
    (match ankiRequest be "deckNames" (.obj []) with
    | .error e => ([env], .error e)
    | .ok decks =>
      match decks with
      | .arr xs =>
        ([env], .ok ("Here is a list of the decks in the user's Anki collection: " ++
          jsJoin xs ", "))
      | _ => ([env], .error .typeError))
  | "listModels" =>
    let env := mkEnvelope "modelNames" (.obj [])
    (match ankiRequest be "modelNames" (.obj []) with
    | .error e => ([env], .error e)
    | .ok models =>
      ([env], .ok ("Here is the list of note models in the user's Anki collection: " ++
        jsString models)))
  | "getModel" =>
    if jsFalsyOpt args then ([], .error (.thrown "getModel requires a model name"))
    else
      let a := args.getD .undefined
      let params : JsVal := .obj [("modelNames", .arr [jsonField a "modelName"])]
      (match ankiRequest be "findModelsByName" params with
      | .error e => ([mkEnvelope "findModelsByName" params], .error e)
      | .ok model =>
        ([mkEnvelope "findModelsByName" params],
          .ok ("Here is the " ++ jsString (jsonField a "modelName") ++
            " in the user's Anki collection: " ++ stringify model)))
  | "addNotes" =>
    let params := match args with
      | none => JsVal.obj []
      | some v => v
    (match ankiRequest be "addNotes" params with
    | .error e => ([mkEnvelope "addNotes" params], .error e)
    | .ok r =>
      match r with
      | .arr xs =>
        ([mkEnvelope "addNotes" params],
          .ok ("Created notes with the following IDs: " ++ jsJoin xs ", "))
      | _ => ([mkEnvelope "addNotes" params], .error .typeError))
  | "addNote" =>
    let params : JsVal := .obj [("note", match args with
      | none => JsVal.undefined
      | some v => v)]
    (match ankiRequest be "addNote" params with
    | .error e => ([mkEnvelope "addNote" params], .error e)
    | .ok r =>
      ([mkEnvelope "addNote" params],
        .ok ("Created note with the following ID: " ++ jsString r)))
  | _ => ([], .error (.thrown "Unknown tool"))

/-- The backend actions that mutate durable backend state (those issued by
the addNote / addNotes tools); everything else the bridge issues is a
read-only query. -/
def mutatingActions : List String := ["addNote", "addNotes"]

/-- The decimal value of a digit string, as the radix-10 `parseInt` digit
fold computes it. -/
def digitsVal (l : List Char) : Nat :=
  l.foldl (fun a c => a * 10 + hexVal0 c) 0

theorem digitChar_toNat {d : Nat} (h : d < 10) : (digitChar d).toNat = 48 + d := by
  interval_cases d <;> decide

theorem hexVal0_digitChar {d : Nat} (h : d < 10) : hexVal0 (digitChar d) = d := by
  interval_cases d <;> decide

theorem natDigitsAux_acc (fuel : Nat) : ∀ (n : Nat) (acc : List Char),
    natDigitsAux fuel n acc = natDigitsAux fuel n [] ++ acc := by
  induction fuel with
  | zero => intro n acc; simp [natDigitsAux]
  | succ fuel ih =>
    intro n acc
    by_cases h : n < 10
    · simp [natDigitsAux, h]
    · simp only [natDigitsAux, if_neg h]
      rw [ih (n / 10) (digitChar (n % 10) :: acc), ih (n / 10) [digitChar (n % 10)]]
      simp

theorem natDigitsAux_digits (fuel : Nat) : ∀ (n : Nat), n < fuel →
    ∀ c ∈ natDigitsAux fuel n [], 48 ≤ c.toNat ∧ c.toNat ≤ 57 := by
  induction fuel with
  | zero => intro n hn; omega
  | succ fuel ih =>
    intro n hn c hc
    by_cases h : n < 10
    · simp [natDigitsAux, h] at hc
      subst hc
      rw [digitChar_toNat h]
      omega
    · simp only [natDigitsAux, if_neg h] at hc
      rw [natDigitsAux_acc] at hc
      rcases List.mem_append.1 hc with hc | hc
      · exact ih (n / 10) (by
          have : n / 10 < n := Nat.div_lt_self (by omega) (by omega)
          omega) c hc
      · have hm : n % 10 < 10 := Nat.mod_lt _ (by omega)
        simp at hc
        subst hc
        rw [digitChar_toNat hm]
        omega

theorem natDigitsAux_nonempty (fuel : Nat) (n : Nat) (h : n < fuel) :
    natDigitsAux fuel n [] ≠ [] := by
  cases fuel with
  | zero => omega
  | succ fuel =>
    by_cases h10 : n < 10
    · simp [natDigitsAux, h10]
    · simp only [natDigitsAux, if_neg h10]
      rw [natDigitsAux_acc]
      simp

theorem natDigitsAux_val (fuel : Nat) : ∀ (n : Nat), n < fuel → ∀ (a : Nat),
    (natDigitsAux fuel n []).foldl (fun a c => a * 10 + hexVal0 c) a =
      a * 10 ^ (natDigitsAux fuel n []).length + n := by
  induction fuel with
  | zero => intro n hn; omega
  | succ fuel ih =>
    intro n hn a
    by_cases h : n < 10
    · simp [natDigitsAux, h, List.foldl, hexVal0_digitChar h]
    · have hdiv : n / 10 < n := Nat.div_lt_self (by omega) (by omega)
      have hfuel : n / 10 < fuel := by omega
      have hm : n % 10 < 10 := Nat.mod_lt _ (by omega)
      simp only [natDigitsAux, if_neg h]
      rw [natDigitsAux_acc fuel (n / 10) [digitChar (n % 10)]]
      rw [List.foldl_append, ih (n / 10) hfuel a]
      simp only [List.foldl, List.length_append, List.length_singleton]
      rw [hexVal0_digitChar hm, pow_succ]
      have hnm := Nat.div_add_mod n 10
      generalize (10 : Nat) ^ (natDigitsAux fuel (n / 10) []).length = t
      ring_nf
      omega

theorem natDigits_digits (n : Nat) : ∀ c ∈ natDigits n, 48 ≤ c.toNat ∧ c.toNat ≤ 57 :=
  natDigitsAux_digits (n + 1) n (by omega)

theorem natDigits_nonempty (n : Nat) : natDigits n ≠ [] :=
  natDigitsAux_nonempty (n + 1) n (by omega)

theorem digitsVal_natDigits (n : Nat) : digitsVal (natDigits n) = n := by
  have := natDigitsAux_val (n + 1) n (by omega) 0
  simpa [digitsVal, natDigits] using this

theorem natRepr_injective : Function.Injective natRepr := by
  intro a b h
  have hd : natDigits a = natDigits b := congrArg String.data h
  calc a = digitsVal (natDigits a) := (digitsVal_natDigits a).symm
    _ = digitsVal (natDigits b) := by rw [hd]
    _ = b := digitsVal_natDigits b

theorem isWsChar_digit {c : Char} (h48 : 48 ≤ c.toNat) (h57 : c.toNat ≤ 57) :
    isWsChar c = false := by
  simp [isWsChar]; omega

theorem hexDigitVal_digit {c : Char} (h48 : 48 ≤ c.toNat) (h57 : c.toNat ≤ 57) :
    hexDigitVal c = some (c.toNat - 48) := by
  rw [hexDigitVal, if_pos ⟨h48, h57⟩]

theorem digitInRadix_digit {c : Char} (h48 : 48 ≤ c.toNat) (h57 : c.toNat ≤ 57) :
    digitInRadix 10 c = true := by
  rw [digitInRadix, hexDigitVal_digit h48 h57]
  simp
  omega

theorem stripSign_digit {c : Char} (cs : List Char)
    (h48 : 48 ≤ c.toNat) (h57 : c.toNat ≤ 57) :
    stripSign (c :: cs) = (1, c :: cs) := by
  have hm : c ≠ '-' := by intro he; subst he; exact absurd h48 (by decide)
  have hp : c ≠ '+' := by intro he; subst he; exact absurd h48 (by decide)
  simp [stripSign, hm, hp]

theorem stripRadix_digits {c : Char} (cs : List Char)
    (hd : ∀ x ∈ c :: cs, 48 ≤ x.toNat ∧ x.toNat ≤ 57) :
    stripRadix (c :: cs) = (10, c :: cs) := by
  rw [stripRadix, if_neg]
  rintro ⟨-, hx | hX⟩
  · simp only [List.tail_cons] at hx
    cases cs with
    | nil => simp at hx
    | cons d ds =>
      simp at hx
      subst hx
      have := hd 'x' (by simp)
      exact absurd this (by decide)
  · simp only [List.tail_cons] at hX
    cases cs with
    | nil => simp at hX
    | cons d ds =>
      simp at hX
      subst hX
      have := hd 'X' (by simp)
      exact absurd this (by decide)

theorem takeWhile_all {p : Char → Bool} : ∀ (l : List Char),
    (∀ c ∈ l, p c = true) → l.takeWhile p = l := by
  intro l h
  induction l with
  | nil => rfl
  | cons c cs ih =>
    rw [List.takeWhile_cons, h c (by simp)]
    simp [ih fun x hx => h x (by simp [hx])]

/-- `parseInt` on a nonempty all-decimal-digit string yields its decimal
value (no sign, no hex prefix, no unconsumed characters). -/
theorem parseIntJS_digits (l : List Char) (hne : l ≠ [])
    (hd : ∀ c ∈ l, 48 ≤ c.toNat ∧ c.toNat ≤ 57) :
    parseIntJS (String.mk l) = some ((digitsVal l : Nat) : Int) := by
  cases l with
  | nil => exact absurd rfl hne
  | cons c cs =>
    have hc := hd c (by simp)
    have hdata : (String.mk (c :: cs)).data = c :: cs := rfl
    rw [parseIntJS]
    simp only [hdata]
    rw [List.dropWhile_cons, isWsChar_digit hc.1 hc.2]
    simp only [Bool.false_eq_true, if_false]
    rw [stripSign_digit cs hc.1 hc.2]
    simp only
    rw [stripRadix_digits cs hd]
    simp only
    rw [takeWhile_all (c :: cs) fun x hx => digitInRadix_digit (hd x hx).1 (hd x hx).2]
    rw [if_neg (by simp)]
    simp [digitsVal]

/-- `parseInt` inverts the decimal rendering of a natural number. -/
theorem parseIntJS_natRepr (n : Nat) : parseIntJS (natRepr n) = some (n : Int) := by
  rw [natRepr, parseIntJS_digits (natDigits n) (natDigits_nonempty n) (natDigits_digits n),
    digitsVal_natDigits]

theorem isPrefixOf_append (p t : List Char) : p.isPrefixOf (p ++ t) = true :=
  List.isPrefixOf_iff_prefix.2 (List.prefix_append p t)

theorem jsStartsWith_append (p x : String) : jsStartsWith (p ++ x) p = true := by
  rw [jsStartsWith, String.data_append]
  exact isPrefixOf_append p.data x.data

theorem replaceFirstL_of_prefix (pat rep : List Char) : ∀ (s : List Char),
    pat.isPrefixOf s = true → replaceFirstL pat rep s = rep ++ s.drop pat.length := by
  intro s h
  cases s with
  | nil =>
    cases pat with
    | nil => simp [replaceFirstL]
    | cons a as => simp [List.isPrefixOf] at h
  | cons c cs => rw [replaceFirstL, if_pos h]

theorem jsReplaceFirst_append (p x : String) : jsReplaceFirst (p ++ x) p "" = x := by
  rw [jsReplaceFirst]
  have hdata : (p ++ x).data = p.data ++ x.data := String.data_append p x
  rw [hdata, replaceFirstL_of_prefix p.data [] (p.data ++ x.data)
    (isPrefixOf_append p.data x.data)]
  have : (p.data ++ x.data).drop p.data.length = x.data := List.drop_left p.data x.data
  rw [this]
  simp only [List.nil_append]

theorem deck_model_uri_ne (a b : String) :
    ("anki://decks/" ++ a) ≠ ("anki://models/" ++ b) := by
  intro h
  have hd : ("anki://decks/").data ++ a.data = ("anki://models/").data ++ b.data := by
    have := congrArg String.data h
    rwa [String.data_append, String.data_append] at this
  have e1 : (("anki://decks/").data ++ a.data).getD 7 ' ' = 'd' := rfl
  have e2 : (("anki://models/").data ++ b.data).getD 7 ' ' = 'm' := rfl
  rw [hd, e2] at e1
  exact absurd e1 (by decide)

theorem deck_uri_injective :
    Function.Injective (fun n : Nat => "anki://decks/" ++ natRepr n) := by
  intro a b h
  have hd := congrArg String.data h
  rw [String.data_append, String.data_append] at hd
  exact natRepr_injective (String.ext (List.append_cancel_left hd))

theorem model_uri_injective :
    Function.Injective (fun n : Nat => "anki://models/" ++ natRepr n) := by
  intro a b h
  have hd := congrArg String.data h
  rw [String.data_append, String.data_append] at hd
  exact natRepr_injective (String.ext (List.append_cancel_left hd))

/-- On any decoded payload other than null/undefined, the gateway returns the
payload's result field — the error field plays no part. -/
theorem ankiRequest_reply (be : Backend) (action : String) (params v : JsVal)
    (hreply : be action params = .reply v)
    (hnull : v ≠ .null) (hundef : v ≠ .undefined) :
    ankiRequest be action params = .ok (jsonField v "result") := by
  unfold ankiRequest
  rw [hreply]
  cases v <;> simp_all

/-- A backend whose every reply carries result 7 and the non-empty error
message "boom". -/
def beErrorReply : Backend :=
  fun _ _ => .reply (.obj [("result", .num 7), ("error", .str "boom")])

/-- C1 counterexample: the decoded payload's error indicator is the non-empty
string "boom", yet `ankiRequest` returns normally with the payload's result
field — it does not fail the calling context, refuting the claim. -/
theorem c1_counterexample :
    jsonField (JsVal.obj [("result", .num 7), ("error", .str "boom")]) "error" =
        .str "boom" ∧
      ankiRequest beErrorReply "deckNames" (.obj []) = .ok (.num 7) :=
  ⟨rfl, rfl⟩

/-- C1 (amended): `ankiRequest` never inspects the error indicator.  Whenever
the transport yields a decoded payload other than null/undefined, it returns
the payload's result field, whether or not the error field is non-empty; only
transport failure (or a null payload, where destructuring throws) fails the
caller. -/
theorem c1_gateway_ignores_error (be : Backend) (action : String)
    (params v : JsVal) (hreply : be action params = .reply v)
    (hnull : v ≠ .null) (hundef : v ≠ .undefined) :
    ankiRequest be action params = .ok (jsonField v "result") :=
  ankiRequest_reply be action params v hreply hnull hundef

/-- C1 witness: the amended theorem at the concrete erroring backend. -/
theorem c1_witness :
    ankiRequest beErrorReply "deckNames" (.obj []) =
      .ok (jsonField (JsVal.obj [("result", .num 7), ("error", .str "boom")]) "result") :=
  c1_gateway_ignores_error beErrorReply "deckNames" (.obj [])
    (.obj [("result", .num 7), ("error", .str "boom")]) rfl
    (fun h => nomatch h) (fun h => nomatch h)

/-- A backend whose every reply carries an empty-array result and a null
error, as AnkiConnect answers a find-models query with no matches. -/
def beModelsReply : Backend :=
  fun _ _ => .reply (.obj [("result", .arr []), ("error", .null)])

/-- C2 counterexample: invoking getModel with a present-but-empty argument
mapping (lacking modelName) does NOT fail with an argument failure — the
handler issues a findModelsByName backend call with `modelNames: [undefined]`
and returns normally, refuting the claim. -/
theorem c2_counterexample :
    handleCallTool beModelsReply "getModel" (some (.obj [])) =
      ([mkEnvelope "findModelsByName" (.obj [("modelNames", .arr [.undefined])])],
        .ok "Here is the undefined in the user's Anki collection: []") :=
  rfl

/-- C2 (amended): the getModel argument check tests only the truthiness of
the whole arguments object.  The call fails with the argument failure (before
any backend call) exactly when the arguments object is absent or falsy; when
an argument mapping is present (even one lacking modelName), the backend call
is issued with `modelNames: [arguments.modelName]`. -/
theorem c2_argcheck_only_whole_object :
    (∀ (be : Backend) (args : Option JsVal), jsFalsyOpt args = true →
        handleCallTool be "getModel" args =
          ([], .error (.thrown "getModel requires a model name"))) ∧
      ∀ (be : Backend) (a : JsVal), jsFalsy a = false →
        (handleCallTool be "getModel" (some a)).1 =
          [mkEnvelope "findModelsByName" (.obj [("modelNames", .arr [jsonField a "modelName"])])] := by
  constructor
  · intro be args h
    simp [handleCallTool, h]
  · intro be a h
    simp only [handleCallTool, jsFalsyOpt, h, Bool.false_eq_true, if_false, Option.getD_some]
    cases ankiRequest be "findModelsByName" (.obj [("modelNames", .arr [jsonField a "modelName"])]) <;> rfl

/-- C2 witness: the amended theorem at absent arguments and at the empty
argument mapping. -/
theorem c2_witness :
    handleCallTool beModelsReply "getModel" none =
        ([], .error (.thrown "getModel requires a model name")) ∧
      (handleCallTool beModelsReply "getModel" (some (.obj []))).1 =
        [mkEnvelope "findModelsByName" (.obj [("modelNames", .arr [jsonField (.obj []) "modelName"])])] :=
  ⟨c2_argcheck_only_whole_object.1 beModelsReply none rfl,
    c2_argcheck_only_whole_object.2 beModelsReply (.obj []) rfl⟩

/-- A backend that always fails at the transport; the decks read path and the
not-found path never consult the backend, so any backend serves them. -/
def beAny : Backend := fun _ _ => .fail

/-- C5: reading `anki://decks/<n>` for any numeric id n succeeds with a single
JSON content block whose text is the serialization of the payload
`\x7b deckId: n \x7d` (decoded payload equals `\x7b deckId: n \x7d`), and any
URI with an unrecognized prefix fails with the "resource not found"
condition. -/
theorem c5_read_deck_and_not_found :
    (∀ (be : Backend) (n : Nat),
        handleReadResource be ("anki://decks/" ++ natRepr n) =
          ([], .ok [⟨"anki://decks/" ++ natRepr n, "application/json",
            stringify (.obj [("deckId", .num (n : Int))])⟩])) ∧
      ∀ (be : Backend) (uri : String),
        jsStartsWith uri "anki://decks/" = false →
        jsStartsWith uri "anki://models/" = false →
        handleReadResource be uri = ([], .error (.thrown "resource not found")) := by
  constructor
  · intro be n
    have hs := jsStartsWith_append "anki://decks/" (natRepr n)
    have hr := jsReplaceFirst_append "anki://decks/" (natRepr n)
    simp [handleReadResource, hs, hr, parseIntJS_natRepr n, numToVal]
  · intro be uri h1 h2
    simp [handleReadResource, h1, h2]

/-- C5 witness: the theorem at id 42 and at the foreign URI bogus://x. -/
theorem c5_witness :
    handleReadResource beAny ("anki://decks/" ++ natRepr 42) =
        ([], .ok [⟨"anki://decks/" ++ natRepr 42, "application/json",
          stringify (.obj [("deckId", .num 42)])⟩]) ∧
      handleReadResource beAny "bogus://x" =
        ([], .error (.thrown "resource not found")) :=
  ⟨c5_read_deck_and_not_found.1 beAny 42,
    c5_read_deck_and_not_found.2 beAny "bogus://x" (by decide) (by decide)⟩

/-- C4 counterexample: the suffix "abc" does not parse as an unsigned integer
(`parseInt` yields NaN), yet reading `anki://decks/abc` does not fail — it
returns content whose payload is `\x7b deckId: null \x7d` (NaN serialized),
refuting the claim that such reads fail as malformed. -/
theorem c4_counterexample :
    parseIntJS "abc" = none ∧
      handleReadResource beAny "anki://decks/abc" =
        ([], .ok [⟨"anki://decks/abc", "application/json",
          stringify (.obj [("deckId", JsVal.nan)])⟩]) :=
  ⟨rfl, rfl⟩

/-- C4 (amended): `read` performs no integer validation of the URI suffix.
A decks-prefix URI always succeeds with a content block (with deckId NaN,
serialized null, when the suffix lacks a parsable integer prefix), and a
models-prefix URI always issues the findModelsById backend call with the
parsed-or-NaN id; no malformed-URI failure occurs on either recognized
prefix. -/
theorem c4_no_suffix_validation :
    (∀ (be : Backend) (uri : String), jsStartsWith uri "anki://decks/" = true →
        ∃ t, handleReadResource be uri = ([], .ok [⟨uri, "application/json", t⟩])) ∧
      ∀ (be : Backend) (uri : String),
        jsStartsWith uri "anki://decks/" = false →
        jsStartsWith uri "anki://models/" = true →
        (handleReadResource be uri).1 =
          [mkEnvelope "findModelsById"
            (.obj [("modelIds",
              .arr [numToVal (parseIntJS (jsReplaceFirst uri "anki://models/" ""))])])] := by
  constructor
  · intro be uri h
    exact ⟨stringify (.obj [("deckId",
        numToVal (parseIntJS (jsReplaceFirst uri "anki://decks/" "")))]),
      by simp [handleReadResource, h]⟩
  · intro be uri h1 h2
    simp only [handleReadResource, h1, h2, Bool.false_eq_true, if_false, if_true]
    cases ankiRequest be "findModelsById"
      (.obj [("modelIds",
        .arr [numToVal (parseIntJS (jsReplaceFirst uri "anki://models/" ""))])]) <;> rfl

/-- C4 witness: the amended theorem at the unparsable suffixes abc and xyz. -/
theorem c4_witness :
    (∃ t, handleReadResource beAny "anki://decks/abc" =
        ([], .ok [⟨"anki://decks/abc", "application/json", t⟩])) ∧
      (handleReadResource beAny "anki://models/xyz").1 =
        [mkEnvelope "findModelsById"
          (.obj [("modelIds",
            .arr [numToVal (parseIntJS (jsReplaceFirst "anki://models/xyz" "anki://models/" ""))])])] :=
  ⟨c4_no_suffix_validation.1 beAny "anki://decks/abc" (by decide),
    c4_no_suffix_validation.2 beAny "anki://models/xyz" (by decide) (by decide)⟩

/-- C9: a decks-prefix read issues zero backend calls — its envelope trace is
empty, its whole outcome is independent of the backend, and folding any
state-transition function over its trace leaves the state unchanged. -/
theorem c9_deck_read_local (be be2 : Backend) (uri : String)
    (h : jsStartsWith uri "anki://decks/" = true) :
    (handleReadResource be uri).1 = [] ∧
      handleReadResource be uri = handleReadResource be2 uri ∧
      ∀ {σ : Type} (step : σ → Envelope → σ) (s : σ),
        ((handleReadResource be uri).1).foldl step s = s := by
  refine ⟨by simp [handleReadResource, h], by simp [handleReadResource, h], ?_⟩
  intro σ step s
  simp [handleReadResource, h]

/-- C9 witness: the theorem at the concrete URI anki://decks/7, two distinct
backends, and a call-counting state function. -/
theorem c9_witness :
    (handleReadResource beAny "anki://decks/7").1 = [] ∧
      handleReadResource beAny "anki://decks/7" =
        handleReadResource beModelsReply "anki://decks/7" ∧
      ((handleReadResource beAny "anki://decks/7").1).foldl
        (fun (n : Nat) _ => n + 1) 0 = 0 := by
  obtain ⟨h1, h2, h3⟩ := c9_deck_read_local beAny beModelsReply "anki://decks/7" (by decide)
  exact ⟨h1, h2, h3 (fun (n : Nat) _ => n + 1) 0⟩

/-- C10: every successful read — decks or models prefix — returns exactly one
content block, whose uri equals the requested URI and whose mimeType is
application/json. -/
theorem c10_single_block (be : Backend) (uri : String)
    (blocks : List ContentBlock)
    (h : (handleReadResource be uri).2 = .ok blocks) :
    ∃ t, blocks = [⟨uri, "application/json", t⟩] := by
  by_cases h1 : jsStartsWith uri "anki://decks/"
  · simp [handleReadResource, h1] at h
    exact ⟨_, h.symm⟩
  · by_cases h2 : jsStartsWith uri "anki://models/"
    · rcases hb : ankiRequest be "findModelsById"
        (.obj [("modelIds",
          .arr [numToVal (parseIntJS (jsReplaceFirst uri "anki://models/" ""))])]) with e | v
      · simp [handleReadResource, h1, h2, hb] at h
      · simp [handleReadResource, h1, h2, hb] at h
        exact ⟨_, h.symm⟩
    · simp [handleReadResource, h1, h2] at h

/-- C10 witness: the theorem at a concrete successful decks read. -/
theorem c10_witness :
    ∃ t, [ContentBlock.mk "anki://decks/7" "application/json"
        (stringify (.obj [("deckId", .num 7)]))] =
      [⟨"anki://decks/7", "application/json", t⟩] :=
  c10_single_block beAny "anki://decks/7"
    [⟨"anki://decks/7", "application/json", stringify (.obj [("deckId", .num 7)])⟩] rfl

theorem intRepr_natCast (n : Nat) : intRepr (n : Int) = natRepr n := rfl

/-- A backend whose deck enumeration maps two distinct names to the same id. -/
def beDupIds : Backend := fun action _ =>
  if action = "deckNamesAndIds" then
    .reply (.obj [("result", .obj [("A", .num 1), ("B", .num 1)])])
  else .reply (.obj [("result", .obj [])])

/-- C3 counterexample: a deck name-to-id mapping assigning the same id to two
names is a legal backend reply, and on it the listing's URI sequence contains
the duplicate URI anki://decks/1 twice, refuting the no-duplicate part of the
claim. -/
theorem c3_counterexample :
    (handleListResources beDupIds).2 =
        .ok [⟨"anki://decks/" ++ natRepr 1, "A"⟩, ⟨"anki://decks/" ++ natRepr 1, "B"⟩] ∧
      ¬ (([(⟨"anki://decks/" ++ natRepr 1, "A"⟩ : Resource),
          ⟨"anki://decks/" ++ natRepr 1, "B"⟩]).map Resource.uri).Nodup :=
  ⟨rfl, by decide⟩

/-- C3 (amended): for every pair of name-to-id mappings returned by the deck
and note-type enumeration calls, list() produces exactly one entry per
mapping key with URI anki://decks/<id> resp. anki://models/<id>, deck entries
concatenated before model entries in the mappings' enumeration order; the URI
sequence has no duplicates provided the ids within each mapping are pairwise
distinct (with a duplicated id inside one mapping, duplicate URIs occur). -/
theorem c3_listing (be : Backend) (decksL modelsL : List (String × Nat))
    (hdecks : be "deckNamesAndIds" (.obj []) =
      .reply (.obj [("result", .obj (decksL.map fun p => (p.1, JsVal.num (p.2 : Int))))]))
    (hmodels : be "modelNamesAndIds" (.obj []) =
      .reply (.obj [("result", .obj (modelsL.map fun p => (p.1, JsVal.num (p.2 : Int))))])) :
    handleListResources be =
        ([mkEnvelope "deckNamesAndIds" (.obj []), mkEnvelope "modelNamesAndIds" (.obj [])],
          .ok ((decksL.map fun p => ⟨"anki://decks/" ++ natRepr p.2, p.1⟩) ++
            (modelsL.map fun p => ⟨"anki://models/" ++ natRepr p.2, p.1⟩))) ∧
      ((decksL.map Prod.snd).Nodup → (modelsL.map Prod.snd).Nodup →
        ((((decksL.map fun p => (⟨"anki://decks/" ++ natRepr p.2, p.1⟩ : Resource)) ++
          (modelsL.map fun p => (⟨"anki://models/" ++ natRepr p.2, p.1⟩ : Resource))).map
            Resource.uri).Nodup)) := by
  constructor
  · rw [handleListResources]
    rw [ankiRequest_reply be "deckNamesAndIds" (.obj []) _ hdecks
      (fun h => nomatch h) (fun h => nomatch h)]
    rw [ankiRequest_reply be "modelNamesAndIds" (.obj []) _ hmodels
      (fun h => nomatch h) (fun h => nomatch h)]
    simp only [jsonField, jsEntries, List.lookup, beq_self_eq_true, if_true,
      Option.getD_some, List.map_map]
    rfl
  · intro hd hm
    simp only [List.map_append, List.map_map]
    rw [List.nodup_append]
    refine ⟨?_, ?_, ?_⟩
    · have : (decksL.map (Resource.uri ∘ fun p =>
          (⟨"anki://decks/" ++ natRepr p.2, p.1⟩ : Resource))) =
          ((decksL.map Prod.snd).map fun n => "anki://decks/" ++ natRepr n) := by
        simp [List.map_map, Function.comp]
      rw [this]
      exact hd.map deck_uri_injective
    · have : (modelsL.map (Resource.uri ∘ fun p =>
          (⟨"anki://models/" ++ natRepr p.2, p.1⟩ : Resource))) =
          ((modelsL.map Prod.snd).map fun n => "anki://models/" ++ natRepr n) := by
        simp [List.map_map, Function.comp]
      rw [this]
      exact hm.map model_uri_injective
    · intro x hx1 hx2
      simp only [List.mem_map, Function.comp] at hx1 hx2
      obtain ⟨p, -, hp⟩ := hx1
      obtain ⟨q, -, hq⟩ := hx2
      exact deck_model_uri_ne (natRepr p.2) (natRepr q.2) (hp.symm ▸ hq.symm ▸ rfl)

/-- A backend answering the two enumeration calls with one deck (Default, id
1) and one note model (Basic, id 2). -/
def beTwo : Backend := fun action _ =>
  if action = "deckNamesAndIds" then
    .reply (.obj [("result", .obj [("Default", .num 1)])])
  else .reply (.obj [("result", .obj [("Basic", .num 2)])])

/-- C3 witness: the amended theorem at concrete one-entry mappings. -/
theorem c3_witness :
    handleListResources beTwo =
        ([mkEnvelope "deckNamesAndIds" (.obj []), mkEnvelope "modelNamesAndIds" (.obj [])],
          .ok [⟨"anki://decks/" ++ natRepr 1, "Default"⟩,
            ⟨"anki://models/" ++ natRepr 2, "Basic"⟩]) ∧
      (([(⟨"anki://decks/" ++ natRepr 1, "Default"⟩ : Resource),
          ⟨"anki://models/" ++ natRepr 2, "Basic"⟩]).map Resource.uri).Nodup := by
  obtain ⟨h1, h2⟩ := c3_listing beTwo [("Default", 1)] [("Basic", 2)] rfl rfl
  exact ⟨h1, h2 (by decide) (by decide)⟩

/-- A backend acknowledging an addNote call with the created id 123. -/
def beNote : Backend :=
  fun _ _ => .reply (.obj [("result", .num 123), ("error", .null)])

/-- The addNote example arguments from the spec. -/
def aNote : JsVal :=
  .obj [("deckName", .str "D"), ("modelName", .str "Basic"),
    ("fields", .obj [("Front", .str "Q"), ("Back", .str "A")])]

/-- C6: invoking addNote with an argument mapping containing deckName,
modelName and fields issues exactly one backend call, with the addNote action
(the spec's "add note") and params `\x7b note: A \x7d`, and on the backend
returning a numeric id the textual result is the fixed prefix followed by the
decimal rendering of that id (hence contains the id). -/
theorem c6_addNote (be : Backend) (a : JsVal) (id : Int) (r : JsVal)
    (_hdeck : jsonHasField a "deckName" = true)
    (_hmodel : jsonHasField a "modelName" = true)
    (_hfields : jsonHasField a "fields" = true)
    (hreply : be "addNote" (.obj [("note", a)]) = .reply r)
    (hnn : r ≠ .null) (hnu : r ≠ .undefined)
    (hres : jsonField r "result" = .num id) :
    handleCallTool be "addNote" (some a) =
      ([mkEnvelope "addNote" (.obj [("note", a)])],
        .ok ("Created note with the following ID: " ++ intRepr id)) := by
  simp only [handleCallTool]
  rw [ankiRequest_reply be "addNote" (.obj [("note", a)]) r hreply hnn hnu, hres]
  simp [jsString]

/-- C6 witness: the theorem at the spec's example arguments and id 123. -/
theorem c6_witness :
    handleCallTool beNote "addNote" (some aNote) =
      ([mkEnvelope "addNote" (.obj [("note", aNote)])],
        .ok ("Created note with the following ID: " ++ intRepr 123)) :=
  c6_addNote beNote aNote 123 (.obj [("result", .num 123), ("error", .null)])
    rfl rfl rfl rfl (fun h => nomatch h) (fun h => nomatch h) rfl

/-- A backend acknowledging an addNotes call with the created ids 1 and 2. -/
def beNotes : Backend :=
  fun _ _ => .reply (.obj [("result", .arr [.num 1, .num 2]), ("error", .null)])

/-- C7: invoking addNotes with a notes array passes the argument mapping
(carrying the array) through unchanged as the addNotes call's params — the
only call issued — and on the backend returning the created ids, the textual
result is the fixed prefix followed by the ids' decimal renderings joined by
", ". -/
theorem c7_addNotes (be : Backend) (notes : List JsVal) (ids : List Int) (r : JsVal)
    (hreply : be "addNotes" (.obj [("notes", .arr notes)]) = .reply r)
    (hnn : r ≠ .null) (hnu : r ≠ .undefined)
    (hres : jsonField r "result" = .arr (ids.map JsVal.num)) :
    handleCallTool be "addNotes" (some (.obj [("notes", .arr notes)])) =
      ([mkEnvelope "addNotes" (.obj [("notes", .arr notes)])],
        .ok ("Created notes with the following IDs: " ++
          String.intercalate ", " (ids.map intRepr))) := by
  simp only [handleCallTool]
  rw [ankiRequest_reply be "addNotes" (.obj [("notes", .arr notes)]) r hreply hnn hnu, hres]
  simp only [jsJoin, List.map_map]
  rfl

/-- C7 witness: the theorem at a one-note array and created ids 1, 2. -/
theorem c7_witness :
    handleCallTool beNotes "addNotes" (some (.obj [("notes", .arr [aNote])])) =
      ([mkEnvelope "addNotes" (.obj [("notes", .arr [aNote])])],
        .ok ("Created notes with the following IDs: " ++
          String.intercalate ", " ([1, 2].map intRepr))) :=
  c7_addNotes beNotes [aNote] [1, 2] (.obj [("result", .arr [.num 1, .num 2]), ("error", .null)])
    rfl (fun h => nomatch h) (fun h => nomatch h) rfl

/-- C8: listDecks and listModels each issue exactly their one read-only
enumeration call (deckNames resp. modelNames — neither a mutating action),
and with the backend fixed, repeated calls (with any argument objects) yield
identical output. -/
theorem c8_list_tools_readonly (be : Backend) (a1 a2 : Option JsVal) :
    (handleCallTool be "listDecks" a1).1 = [mkEnvelope "deckNames" (.obj [])] ∧
      (handleCallTool be "listModels" a1).1 = [mkEnvelope "modelNames" (.obj [])] ∧
      (∀ env ∈ (handleCallTool be "listDecks" a1).1, env.action ∉ mutatingActions) ∧
      (∀ env ∈ (handleCallTool be "listModels" a1).1, env.action ∉ mutatingActions) ∧
      handleCallTool be "listDecks" a1 = handleCallTool be "listDecks" a2 ∧
      handleCallTool be "listModels" a1 = handleCallTool be "listModels" a2 := by
  have hdecks : (handleCallTool be "listDecks" a1).1 = [mkEnvelope "deckNames" (.obj [])] := by
    simp only [handleCallTool]
    cases ankiRequest be "deckNames" (.obj []) with
    | error e => rfl
    | ok v => cases v <;> rfl
  have hmodels : (handleCallTool be "listModels" a1).1 = [mkEnvelope "modelNames" (.obj [])] := by
    simp only [handleCallTool]
    cases ankiRequest be "modelNames" (.obj []) with
    | error e => rfl
    | ok v => rfl
  refine ⟨hdecks, hmodels, ?_, ?_, rfl, rfl⟩
  · intro env henv
    rw [hdecks] at henv
    simp at henv
    subst henv
    decide
  · intro env henv
    rw [hmodels] at henv
    simp at henv
    subst henv
    decide

end AnkiMcp
